import Mathlib

/-!
Verification development for the ETS template compiler (src/src/ets.ts).

The source file contains two near-duplicate variants of the same engine.
The second variant (default `compileDebug = true`, default escape
`customEscape`) is the "primary engine" in the sense of the specification
(§6: "treat as `true` for the primary engine").  Definitions below are
shallow embeddings of the TypeScript functions, working over `List Char`
in place of JavaScript strings.  Looping constructs are embedded with an
explicit fuel argument sized so that it is never exhausted on the runs
the original code terminates on; where the original would loop forever
(only possible with an empty marker string, i.e. empty delimiters) the
embedding returns a junk value and theorems carry the corresponding
non-emptiness hypothesis.
-/

namespace Ets

/-- Delimiter configuration: `openDelimiter`, `closeDelimiter`, `delimiter`
from `ETSOptions` (defaults `<`, `>`, `%`). -/
structure DelimSet where
  openDelimiter : List Char
  closeDelimiter : List Char
  delimiter : List Char
deriving DecidableEq, Repr

/-- The default delimiter configuration (`DEFAULT_OPEN_DELIMITER` `<`,
`DEFAULT_CLOSE_DELIMITER` `>`, `DEFAULT_DELIMITER` `%`). -/
def defaultDelims : DelimSet :=
  ⟨"<".toList, ">".toList, "%".toList⟩

/-- The ten marker strings of the scanning pattern, in alternation order:
`REGEX_STRING = '(<%%|%%>|<%=|<%-|<%_|<%#|<%|%>|-%>|_%>)'` after
substituting the configured delimiters for `%`, `<`, `>`
(`Template.createRegex`). -/
def markers (cfg : DelimSet) : List (List Char) :=
  let o := cfg.openDelimiter
  let c := cfg.closeDelimiter
  let d := cfg.delimiter
  [ o ++ d ++ d
  , d ++ d ++ c
  , o ++ d ++ ['=']
  , o ++ d ++ ['-']
  , o ++ d ++ ['_']
  , o ++ d ++ ['#']
  , o ++ d
  , d ++ c
  , '-' :: (d ++ c)
  , '_' :: (d ++ c) ]

/-- Whether `pre` is a prefix of `l` (string match at the current position). -/
def listStartsWith : List Char → List Char → Bool
  | [], _ => true
  | _ :: _, [] => false
  | a :: asRest, b :: bs => a = b && listStartsWith asRest bs

/-- First marker (in alternation order) matching at the head of `l`:
the regex alternation tries its literal alternatives left to right. -/
def findMarkerAt (ms : List (List Char)) (l : List Char) : Option (List Char) :=
  ms.find? (fun m => listStartsWith m l)

/-- Leftmost match of the scanning pattern (`pat.exec(str)`): the smallest
index at which some alternative matches, together with the matched marker. -/
def findMatch (ms : List (List Char)) : List Char → Option (Nat × List Char)
  | [] =>
    match findMarkerAt ms [] with
    | some m => some (0, m)
    | none => none
  | c :: rest =>
    match findMarkerAt ms (c :: rest) with
    | some m => some (0, m)
    | none => (findMatch ms rest).map (fun p => (p.1 + 1, p.2))

/-- Scanning loop of `Template.parseTemplateText`: emit the literal span
before each match (when non-empty), then the matched marker, continue after
it; the leftover tail is emitted when non-empty.  `fuel` bounds the number
of iterations; `parseTemplateText` supplies enough fuel for every input on
which the original loop terminates (each iteration consumes at least one
character when no marker is empty). -/
def parseGo (ms : List (List Char)) : Nat → List Char → List (List Char)
  | 0, str => if str = [] then [] else [str]
  | fuel + 1, str =>
    match findMatch ms str with
    | none => if str = [] then [] else [str]
    | some (i, m) =>
      (if i = 0 then [m] else [str.take i, m]) ++ parseGo ms fuel (str.drop (i + m.length))

/-- `Template.parseTemplateText` on the (already pre-processed) template text. -/
def parseTemplateText (ms : List (List Char)) (str : List Char) : List (List Char) :=
  parseGo ms (str.length + 1) str

/- ### Basic lemmas about prefixes and matching -/

theorem listStartsWith_self (l : List Char) : listStartsWith l l = true := by
  induction l with
  | nil => rfl
  | cons c cs ih => simp [listStartsWith, ih]

theorem listStartsWith_nil_right {m : List Char} (h : listStartsWith m [] = true) :
    m = [] := by
  cases m with
  | nil => rfl
  | cons c cs => simp [listStartsWith] at h

theorem listStartsWith_decomp {m l : List Char} (h : listStartsWith m l = true) :
    m ++ l.drop m.length = l := by
  induction m generalizing l with
  | nil => simp
  | cons c cs ih =>
    cases l with
    | nil => simp [listStartsWith] at h
    | cons b bs =>
      simp only [listStartsWith, Bool.and_eq_true, decide_eq_true_eq] at h
      obtain ⟨rfl, h2⟩ := h
      simpa using ih h2

theorem listStartsWith_trans {m n l : List Char} (hmn : listStartsWith m n = true)
    (hnl : listStartsWith n l = true) : listStartsWith m l = true := by
  induction m generalizing n l with
  | nil => rfl
  | cons c cs ih =>
    cases n with
    | nil => simp [listStartsWith] at hmn
    | cons b bs =>
      cases l with
      | nil => simp [listStartsWith] at hnl
      | cons a asRest =>
        simp only [listStartsWith, Bool.and_eq_true, decide_eq_true_eq] at hmn hnl ⊢
        exact ⟨hmn.1.trans hnl.1, ih hmn.2 hnl.2⟩

theorem findMarkerAt_mem {ms : List (List Char)} {l m : List Char}
    (h : findMarkerAt ms l = some m) : m ∈ ms ∧ listStartsWith m l = true := by
  have h1 := List.find?_some h
  have h2 := List.mem_of_find?_eq_some h
  exact ⟨h2, h1⟩

theorem findMatch_mem {ms : List (List Char)} {l : List Char} {i : Nat} {m : List Char}
    (h : findMatch ms l = some (i, m)) : m ∈ ms := by
  induction l generalizing i with
  | nil =>
    simp only [findMatch] at h
    cases hfa : findMarkerAt ms [] with
    | none => rw [hfa] at h; exact absurd h (by simp)
    | some m' =>
      rw [hfa] at h
      obtain ⟨rfl, rfl⟩ : m' = m ∧ 0 = i := by
        constructor <;> [skip; skip] <;> cases h <;> rfl
      exact (findMarkerAt_mem hfa).1
  | cons c cs ih =>
    simp only [findMatch] at h
    cases hfa : findMarkerAt ms (c :: cs) with
    | some m' =>
      rw [hfa] at h
      cases h
      exact (findMarkerAt_mem hfa).1
    | none =>
      rw [hfa] at h
      cases hrec : findMatch ms cs with
      | none => rw [hrec] at h; exact absurd h (by simp)
      | some p =>
        obtain ⟨j, m2⟩ := p
        rw [hrec] at h
        simp only [Option.map_some'] at h
        cases h
        exact ih hrec

theorem findMatch_decomp {ms : List (List Char)} {l : List Char} {i : Nat} {m : List Char}
    (h : findMatch ms l = some (i, m)) :
    l.take i ++ m ++ l.drop (i + m.length) = l := by
  induction l generalizing i with
  | nil =>
    simp only [findMatch] at h
    cases hfa : findMarkerAt ms [] with
    | none => rw [hfa] at h; exact absurd h (by simp)
    | some m' =>
      rw [hfa] at h
      cases h
      have hm := (findMarkerAt_mem hfa).2
      have := listStartsWith_nil_right hm
      subst this
      simp
  | cons c cs ih =>
    simp only [findMatch] at h
    cases hfa : findMarkerAt ms (c :: cs) with
    | some m' =>
      rw [hfa] at h
      cases h
      have hm := (findMarkerAt_mem hfa).2
      simpa using listStartsWith_decomp hm
    | none =>
      rw [hfa] at h
      cases hrec : findMatch ms cs with
      | none => rw [hrec] at h; exact absurd h (by simp)
      | some p =>
        obtain ⟨j, m2⟩ := p
        rw [hrec] at h
        simp only [Option.map_some'] at h
        cases h
        have hrec2 := ih (i := j) hrec
        calc (c :: cs).take (j + 1) ++ m ++ (c :: cs).drop (j + 1 + m.length)
            = c :: (cs.take j ++ m ++ cs.drop (j + m.length)) := by
              simp [List.take_succ_cons, Nat.add_right_comm j 1 m.length]
          _ = c :: cs := by rw [hrec2]

/- ### C1: the scan is lossless -/

theorem parseGo_join (ms : List (List Char)) (hne : ∀ m ∈ ms, m ≠ []) :
    ∀ fuel str, str.length ≤ fuel →
      ((parseGo ms fuel str).flatten = str ∧
        List.Chain' (fun a b => a ∈ ms ∨ b ∈ ms) (parseGo ms fuel str)) := by
  intro fuel
  induction fuel with
  | zero =>
    intro str hlen
    have : str = [] := List.length_eq_zero.mp (Nat.le_zero.mp hlen)
    subst this
    simp [parseGo]
  | succ n ih =>
    intro str hlen
    cases hfm : findMatch ms str with
    | none =>
      by_cases hstr : str = []
      · subst hstr; simp [parseGo, hfm]
      · simp [parseGo, hfm, hstr]
    | some p =>
      obtain ⟨i, m⟩ := p
      have hmem : m ∈ ms := findMatch_mem hfm
      have hmne : m ≠ [] := hne m hmem
      have hdec := findMatch_decomp hfm
      have hdroplen : (str.drop (i + m.length)).length ≤ n := by
        have hlen2 : (str.take i ++ m ++ str.drop (i + m.length)).length = str.length := by
          rw [hdec]
        have hmlen : 1 ≤ m.length := by
          cases m with
          | nil => exact absurd rfl hmne
          | cons a b => simp
        simp only [List.length_append] at hlen2
        omega
      obtain ⟨ihj, ihc⟩ := ih (str.drop (i + m.length)) hdroplen
      constructor
      · simp only [parseGo, hfm]
        by_cases hi : i = 0
        · rw [if_pos hi]
          subst hi
          simp only [Nat.zero_add] at ihj hdec
          simp only [Nat.zero_add, List.singleton_append, List.flatten_cons, ihj]
          simpa using hdec
        · rw [if_neg hi]
          simp only [List.cons_append, List.nil_append, List.flatten_cons, ihj]
          simpa [List.append_assoc] using hdec
      · simp only [parseGo, hfm]
        by_cases hi : i = 0
        · rw [if_pos hi]
          simp only [List.singleton_append]
          exact List.chain'_cons'.mpr ⟨fun b _ => Or.inl hmem, ihc⟩
        · rw [if_neg hi]
          simp only [List.cons_append, List.nil_append]
          refine List.chain'_cons'.mpr
            ⟨?_, List.chain'_cons'.mpr ⟨fun b _ => Or.inl hmem, ihc⟩⟩
          intro b hb
          have hbm : m = b := by simpa using hb
          subst hbm
          exact Or.inr hmem

/-- C1: for every delimiter configuration with non-empty marker strings
(in particular every single-character configuration) and every template
string, the token sequence produced by `Template.parseTemplateText` is
lossless — concatenating all tokens in order yields exactly the input —
and literal spans and tag markers alternate in document order (no two
adjacent tokens are both literal spans). -/
theorem parseTemplateText_lossless (ms : List (List Char)) (str : List Char)
    (hne : ∀ m ∈ ms, m ≠ []) :
    (parseTemplateText ms str).flatten = str ∧
      List.Chain' (fun a b => a ∈ ms ∨ b ∈ ms) (parseTemplateText ms str) :=
  parseGo_join ms hne (str.length + 1) str (Nat.le_succ_of_le (Nat.le_refl _))

/-- Witness for C1 at a concrete template and the default configuration. -/
theorem parseTemplateText_lossless_witness :
    (∀ m ∈ markers defaultDelims, m ≠ []) ∧
      (parseTemplateText (markers defaultDelims) "a<%= x %>b".toList).flatten
        = "a<%= x %>b".toList := by
  refine ⟨by decide, ?_⟩
  exact (parseTemplateText_lossless (markers defaultDelims) "a<%= x %>b".toList
    (by decide)).1

/- ### String-literal escaping in `Template.#addOutput` -/

/-- The double-quote character (written by code point to keep quoting simple). -/
def qtChar : Char := Char.ofNat 34

/-- The single-quote / apostrophe character. -/
def aposChar : Char := Char.ofNat 39

/-- `line.replace(/\\/g, '\\\\')`: double every backslash. -/
def escBackslash : List Char → List Char
  | [] => []
  | c :: rest =>
    if c = '\\' then '\\' :: '\\' :: escBackslash rest
    else c :: escBackslash rest

/-- `line.replace(/\n/g, '\\n')`: newline char becomes backslash-`n`. -/
def escLF : List Char → List Char
  | [] => []
  | c :: rest =>
    if c = '\n' then '\\' :: 'n' :: escLF rest
    else c :: escLF rest

/-- `line.replace(/\r/g, '\\r')`: carriage-return char becomes backslash-`r`. -/
def escCR : List Char → List Char
  | [] => []
  | c :: rest =>
    if c = '\r' then '\\' :: 'r' :: escCR rest
    else c :: escCR rest

/-- `line.replace(/"/g, '\\"')`: double quote becomes backslash-quote. -/
def escQuote : List Char → List Char
  | [] => []
  | c :: rest =>
    if c = qtChar then '\\' :: qtChar :: escQuote rest
    else c :: escQuote rest

/-- The four successive global replaces `Template.#addOutput` applies to a
literal span before embedding it in a double-quoted string literal. -/
def jsEscapeString (l : List Char) : List Char :=
  escQuote (escCR (escLF (escBackslash l)))

/-- Decoding of a double-quoted JavaScript string literal body, restricted to
the escape sequences `Template.#addOutput` produces (`\\`, `\n`, `\r`, `\"`;
an unknown escape decodes to the escaped character itself, as in JS). -/
def jsUnquote : List Char → List Char
  | [] => []
  | '\\' :: e :: rest =>
    (if e = 'n' then '\n' else if e = 'r' then '\r' else e) :: jsUnquote rest
  | c :: rest => c :: jsUnquote rest

/- ### Whitespace slurping before scanning (`Template.generateSource`) -/

/-- Space or tab, the character class `[ \t]` of the slurp regexes. -/
def isSpaceTab (c : Char) : Bool := c = ' ' || c = '\t'

/-- The literal `<%_` of the hardcoded slurp regex. -/
def odUnd : List Char := "<%_".toList

/-- The literal `_%>` of the hardcoded slurp regex. -/
def undDC : List Char := "_%>".toList

/-- Loop of `templateText.replace(/[ \t]*<%_/gm, '<%_')`: remove the run of
spaces and tabs immediately before each `<%_`.  Fuel-bounded; `slurpOpen`
supplies enough fuel (each step consumes at least one character). -/
def slurpOpenGo : Nat → List Char → List Char
  | 0, l => l
  | _fuel + 1, [] => []
  | fuel + 1, c :: rest =>
    let after := (c :: rest).dropWhile isSpaceTab
    if listStartsWith odUnd after then odUnd ++ slurpOpenGo fuel (after.drop 3)
    else c :: slurpOpenGo fuel rest

/-- `templateText.replace(/[ \t]*<%_/gm, '<%_')`. -/
def slurpOpen (l : List Char) : List Char := slurpOpenGo (l.length + 1) l

/-- Loop of `templateText.replace(/_%>[ \t]*/gm, '_%>')`: remove the run of
spaces and tabs immediately after each `_%>`. -/
def slurpCloseGo : Nat → List Char → List Char
  | 0, l => l
  | _fuel + 1, [] => []
  | fuel + 1, c :: rest =>
    if listStartsWith undDC (c :: rest) then
      undDC ++ slurpCloseGo fuel (((c :: rest).drop 3).dropWhile isSpaceTab)
    else c :: slurpCloseGo fuel rest

/-- `templateText.replace(/_%>[ \t]*/gm, '_%>')`. -/
def slurpClose (l : List Char) : List Char := slurpCloseGo (l.length + 1) l

/- ### Mode state machine and source synthesizer -/

/-- The five scan modes of the `modes` table. -/
inductive Mode where
  | eval | escaped | raw | comment | literal
deriving DecidableEq, Repr

/-- One statement appended to `this.source`.  The generated program is a
text buffer in the original; here it is modelled as the list of the
statements the scanner appends, each carrying the exact payload string:
`appendStr s` stands for `; __append("s")` (with `s` the already-escaped
body of the string literal), `code s` for `; s`, `appendEscape s` for
`; __append(escapeFn(s))`, `appendRaw s` for `; __append(s)` and
`lineUpdate n` for `; __line = n`. -/
inductive Stmt where
  | appendStr (s : List Char)
  | code (s : List Char)
  | appendEscape (s : List Char)
  | appendRaw (s : List Char)
  | lineUpdate (n : Nat)
deriving DecidableEq, Repr

/-- Compilation state mutated by `Template.scanLine` / `Template.#addOutput`:
current mode, pending-truncate flag, current line counter, and the
accumulated synthesized source. -/
structure ScanState where
  mode : Option Mode
  truncate : Bool
  currentLine : Nat
  source : List Stmt
deriving DecidableEq, Repr

/-- Initial compilation state of a fresh `Template`. -/
def initState : ScanState := ⟨none, false, 1, []⟩

/-- The leading line-break strip of `Template.#addOutput`:
`line.replace(/^(?:\r\n|\r|\n)/, '')` (CRLF first, then CR, then LF;
at most one sequence removed). -/
def stripOneLeadingNewline : List Char → List Char
  | '\r' :: '\n' :: rest => rest
  | '\r' :: rest => rest
  | '\n' :: rest => rest
  | l => l

/-- `Template.#addOutput`: if the truncate flag is armed, strip one leading
line break and clear the flag; if the (resulting) content is empty emit
nothing, otherwise emit `; __append("...")` with the escaped content. -/
def addOutput (st : ScanState) (line : List Char) : ScanState :=
  let stripped := if st.truncate then stripOneLeadingNewline line else line
  let trunc := if st.truncate then false else st.truncate
  if stripped = [] then { st with truncate := trunc }
  else { st with truncate := trunc,
                 source := st.source ++ [.appendStr (jsEscapeString stripped)] }

/-- Number of newline characters in a token (`line.split('\n').length - 1`). -/
def countNl (line : List Char) : Nat := line.count '\n'

/-- Last index of `needle` in `hay` (`String.prototype.lastIndexOf`),
`none` standing for `-1`. -/
def lastOccur (needle hay : List Char) : Option Nat :=
  (List.range hay.length).foldl
    (fun acc i => if listStartsWith needle (hay.drop i) then some i else acc) none

/-- `String.prototype.lastIndexOf` with the JS `-1` convention. -/
def jsLastIndexOf (needle hay : List Char) : Int :=
  match lastOccur needle hay with
  | none => -1
  | some i => (i : Int)

/-- The `//`-comment guard of `Template.scanLine`: if the last `//` comes
after the last newline, append a newline so a following synthesized
statement is not swallowed by the comment. -/
def commentFix (line : List Char) : List Char :=
  if jsLastIndexOf "//".toList line > jsLastIndexOf "\n".toList line then
    line ++ ['\n']
  else line

/-- `stripSemi`: `str.replace(/;(\s*$)/, '$1')` — remove the (unique)
semicolon that is followed only by whitespace up to the end of the string,
when there is one. -/
def isJsWhitespace (c : Char) : Bool :=
  c = ' ' || c = '\t' || c = '\n' || c = '\r' ||
    c = Char.ofNat 11 || c = Char.ofNat 12 || c = Char.ofNat 160 ||
    c = Char.ofNat 5760 || (8192 ≤ c.toNat && c.toNat ≤ 8202) ||
    c = Char.ofNat 8232 || c = Char.ofNat 8233 || c = Char.ofNat 8239 ||
    c = Char.ofNat 8287 || c = Char.ofNat 12288 || c = Char.ofNat 65279

/-- The non-global replace scans left to right for the first `;` whose tail
is entirely whitespace and drops it, keeping the whitespace. -/
def stripSemi : List Char → List Char
  | [] => []
  | c :: rest =>
    if c = ';' && rest.all isJsWhitespace then rest
    else c :: stripSemi rest

/-- Default branch of the `Template.scanLine` switch (the token is not one
of the ten marker strings): in script mode the content is synthesized
according to the mode, in string mode it is appended as literal output. -/
def scanDefault (st : ScanState) (line : List Char) : ScanState :=
  match st.mode with
  | some .eval => { st with source := st.source ++ [.code (commentFix line)] }
  | some .escaped =>
    { st with source := st.source ++ [.appendEscape (stripSemi (commentFix line))] }
  | some .raw =>
    { st with source := st.source ++ [.appendRaw (stripSemi (commentFix line))] }
  | some .comment => st
  | some .literal => addOutput st line
  | none => addOutput st line

/-- `Template.scanLine`: the switch over the current token, updating mode,
truncate flag, synthesized source and (in debug mode) the line counter. -/
def scanLine (cfg : DelimSet) (compileDebug : Bool) (st : ScanState)
    (line : List Char) : ScanState :=
  let o := cfg.openDelimiter
  let d := cfg.delimiter
  let c := cfg.closeDelimiter
  let newLineCount := countNl line
  let st1 :=
    if line = o ++ d ∨ line = o ++ d ++ ['_'] then
      { st with mode := some .eval }
    else if line = o ++ d ++ ['='] then
      { st with mode := some .escaped }
    else if line = o ++ d ++ ['-'] then
      { st with mode := some .raw }
    else if line = o ++ d ++ ['#'] then
      { st with mode := some .comment }
    else if line = o ++ d ++ d then
      { st with mode := some .literal,
                source := st.source ++ [.appendStr (o ++ d)] }
    else if line = d ++ d ++ c then
      { st with mode := some .literal,
                source := st.source ++ [.appendStr (d ++ c)] }
    else if line = d ++ c ∨ line = '-' :: (d ++ c) ∨ line = '_' :: (d ++ c) then
      let st2 := if st.mode = some .literal then addOutput st line else st
      { st2 with mode := none,
                 truncate := listStartsWith ['-'] line || listStartsWith ['_'] line }
    else scanDefault st line
  if compileDebug && newLineCount != 0 then
    { st1 with currentLine := st1.currentLine + newLineCount,
               source := st1.source ++ [.lineUpdate (st1.currentLine + newLineCount)] }
  else st1

/- ### Close-tag validation and `Template.generateSource` -/

/-- Opening-tag test of the validation loop: the token starts with
`openDelimiter + delimiter` but not with the doubled-delimiter escape. -/
def isOpenTag (cfg : DelimSet) (line : List Char) : Bool :=
  listStartsWith (cfg.openDelimiter ++ cfg.delimiter) line &&
    !listStartsWith (cfg.openDelimiter ++ cfg.delimiter ++ cfg.delimiter) line

/-- Valid close markers for the validation loop: the token two positions
later must be `delimiter+close`, `-`+`delimiter+close` or
`_`+`delimiter+close` (an out-of-range lookup, JS `undefined`, is invalid). -/
def isValidClose (cfg : DelimSet) : Option (List Char) → Bool
  | none => false
  | some t =>
    decide (t = cfg.delimiter ++ cfg.closeDelimiter) ||
      decide (t = '-' :: (cfg.delimiter ++ cfg.closeDelimiter)) ||
      decide (t = '_' :: (cfg.delimiter ++ cfg.closeDelimiter))

/-- Message of the structural compile error
`Could not find matching close tag for "<line>".`. -/
def unmatchedError (line : List Char) : List Char :=
  "Could not find matching close tag for \"".toList ++ line ++ "\".".toList

/-- The close-tag validation of `Template.generateSource`: for each token
that is an opening tag, the token two positions later (`matches[index + 2]`,
i.e. `rest[1]` here) must be a valid close marker, else compilation throws. -/
def closeTagCheck (cfg : DelimSet) : List (List Char) → Except (List Char) Unit
  | [] => .ok ()
  | line :: rest =>
    if isOpenTag cfg line && !isValidClose cfg rest[1]? then
      .error (unmatchedError line)
    else closeTagCheck cfg rest

/-- The token sequence `Template.generateSource` actually scans: the
template text after the `<%_` / `_%>` whitespace slurps, tokenized by
`Template.parseTemplateText`. -/
def scannedTokens (cfg : DelimSet) (text : List Char) : List (List Char) :=
  parseTemplateText (markers cfg) (slurpClose (slurpOpen text))

/-- `Template.generateSource` (with `rmWhitespace = false`, the default —
the claims under verification do not involve that option): slurp whitespace
around `<%_` / `_%>`, tokenize, validate close tags, and run the scanner
over the token sequence.  In the original the validation and the scan are
interleaved in one loop; since `scanLine` never throws, the thrown error and
the fully-scanned source are the same either way. -/
def generateSourceStmts (cfg : DelimSet) (compileDebug : Bool)
    (text : List Char) : Except (List Char) (List Stmt) :=
  let toks := scannedTokens cfg text
  match closeTagCheck cfg toks with
  | .error e => .error e
  | .ok _ => .ok ((toks.foldl (scanLine cfg compileDebug) initState).source)

/- ### Output semantics of the synthesized statements -/

/-- Output contributed by one synthesized statement when the compiled
function runs: a literal append contributes its decoded string literal, a
line-counter update contributes nothing, and statements that evaluate
embedded code have no value in this model (`none`). -/
def stmtOut : Stmt → Option (List Char)
  | .appendStr s => some (jsUnquote s)
  | .lineUpdate _ => some []
  | _ => none

/-- Concatenated output of a statement list, defined when no statement
needs to evaluate embedded code. -/
def execOutput : List Stmt → Option (List Char)
  | [] => some []
  | s :: rest =>
    match stmtOut s, execOutput rest with
    | some a, some b => some (a ++ b)
    | _, _ => none

/- ### C2: unmatched close-tag detection -/

/-- Position `i` of the token sequence holds an opening marker whose token
two positions later is not a valid close marker. -/
def offenderAt (cfg : DelimSet) (toks : List (List Char)) (i : Nat) : Prop :=
  ∃ line, toks[i]? = some line ∧ isOpenTag cfg line = true ∧
    isValidClose cfg toks[i + 2]? = false

theorem offenderAt_cons_zero {cfg : DelimSet} {line : List Char}
    {rest : List (List Char)} :
    offenderAt cfg (line :: rest) 0 ↔
      (isOpenTag cfg line = true ∧ isValidClose cfg rest[1]? = false) := by
  simp [offenderAt]

theorem offenderAt_cons_succ {cfg : DelimSet} {line : List Char}
    {rest : List (List Char)} {i : Nat} :
    offenderAt cfg (line :: rest) (i + 1) ↔ offenderAt cfg rest i := by
  simp [offenderAt]

theorem closeTagCheck_spec (cfg : DelimSet) (toks : List (List Char)) :
    (closeTagCheck cfg toks = .ok () ↔ ∀ i, ¬ offenderAt cfg toks i)
    ∧ (∀ i, offenderAt cfg toks i → (∀ j, j < i → ¬ offenderAt cfg toks j) →
        ∃ line, toks[i]? = some line ∧
          closeTagCheck cfg toks = .error (unmatchedError line)) := by
  induction toks with
  | nil =>
    refine ⟨?_, ?_⟩
    · simp only [closeTagCheck, true_iff]
      intro i hoff
      obtain ⟨line, hline, -⟩ := hoff
      simp at hline
    · intro i hoff
      obtain ⟨line, hline, -⟩ := hoff
      simp at hline
  | cons line rest ih =>
    by_cases hc : (isOpenTag cfg line && !isValidClose cfg rest[1]?) = true
    · have hoff0 : offenderAt cfg (line :: rest) 0 := by
        rw [offenderAt_cons_zero]
        simp only [Bool.and_eq_true, Bool.not_eq_true'] at hc
        exact hc
      refine ⟨?_, ?_⟩
      · simp only [closeTagCheck, if_pos hc]
        constructor
        · intro h; exact absurd h (by simp)
        · intro h; exact absurd hoff0 (h 0)
      · intro i hoffi hmin
        cases i with
        | zero =>
          exact ⟨line, by simp, by simp only [closeTagCheck, if_pos hc]⟩
        | succ i' =>
          exact absurd hoff0 (hmin 0 (Nat.succ_pos i'))
    · have hnoff0 : ¬ offenderAt cfg (line :: rest) 0 := by
        rw [offenderAt_cons_zero]
        intro ⟨h1, h2⟩
        exact hc (by simp [h1, h2])
      refine ⟨?_, ?_⟩
      · simp only [closeTagCheck, if_neg hc]
        rw [ih.1]
        constructor
        · intro h i
          cases i with
          | zero => exact hnoff0
          | succ i' => rw [offenderAt_cons_succ]; exact h i'
        · intro h i
          have := h (i + 1)
          rwa [offenderAt_cons_succ] at this
      · intro i hoffi hmin
        cases i with
        | zero => exact absurd hoffi hnoff0
        | succ i' =>
          rw [offenderAt_cons_succ] at hoffi
          have hmin' : ∀ j, j < i' → ¬ offenderAt cfg rest j := by
            intro j hj
            have := hmin (j + 1) (Nat.succ_lt_succ hj)
            rwa [offenderAt_cons_succ] at this
          obtain ⟨l2, hl2, herr⟩ := ih.2 i' hoffi hmin'
          exact ⟨l2, by simpa using hl2, by simp only [closeTagCheck, if_neg hc]; exact herr⟩

/-- C2: for every compiled template, if the scanned token sequence contains
an opening marker (a token starting with `openDelimiter + delimiter` but
not with the doubled-delimiter escape) whose token two positions later is
not one of the three valid close markers, then compilation fails with the
unmatched-close-tag error naming the (first) such opening marker's literal
text; otherwise no unmatched-close-tag error is raised and source
generation succeeds. -/
theorem generateSource_unmatched_close (cfg : DelimSet) (compileDebug : Bool)
    (text : List Char) :
    ((∀ i, ¬ offenderAt cfg (scannedTokens cfg text) i) →
      ∃ stmts, generateSourceStmts cfg compileDebug text = .ok stmts)
    ∧ (∀ i, offenderAt cfg (scannedTokens cfg text) i →
        (∀ j, j < i → ¬ offenderAt cfg (scannedTokens cfg text) j) →
        ∃ line, (scannedTokens cfg text)[i]? = some line ∧
          generateSourceStmts cfg compileDebug text = .error (unmatchedError line)) := by
  have hspec := closeTagCheck_spec cfg (scannedTokens cfg text)
  refine ⟨?_, ?_⟩
  · intro h
    have hok := hspec.1.mpr h
    exact ⟨(List.foldl (scanLine cfg compileDebug) initState (scannedTokens cfg text)).source,
      by simp only [generateSourceStmts, hok]⟩
  · intro i hoff hmin
    obtain ⟨line, hline, herr⟩ := hspec.2 i hoff hmin
    exact ⟨line, hline, by simp only [generateSourceStmts, herr]⟩

/-- Witness for C2: compiling `"<h1>oops</h1><%- name ->"` (the malformed
close from the specification) fails with the error naming `<%-`, and a
well-formed template compiles without the error. -/
theorem generateSource_unmatched_close_witness :
    generateSourceStmts defaultDelims true "<h1>oops</h1><%- name ->".toList
      = .error (unmatchedError "<%-".toList)
    ∧ ∃ stmts, generateSourceStmts defaultDelims true "<p><%= name %></p>".toList
        = .ok stmts := by
  constructor
  · have h := (generateSource_unmatched_close defaultDelims true
      "<h1>oops</h1><%- name ->".toList).2 1
      ⟨"<%-".toList, by decide, by decide, by decide⟩
      (by
        intro j hj
        interval_cases j
        rintro ⟨l, hl, hopen, -⟩
        have : l = "<h1>oops</h1>".toList := by
          have : (scannedTokens defaultDelims "<h1>oops</h1><%- name ->".toList)[0]?
              = some "<h1>oops</h1>".toList := by decide
          rw [this] at hl
          exact (Option.some.injEq _ _).mp hl.symm
        subst this
        exact absurd hopen (by decide))
    obtain ⟨line, hline, herr⟩ := h
    have : line = "<%-".toList := by
      have h2 : (scannedTokens defaultDelims "<h1>oops</h1><%- name ->".toList)[1]?
          = some "<%-".toList := by decide
      rw [h2] at hline
      exact (Option.some.injEq _ _).mp hline.symm
    rw [this] at herr
    exact herr
  · exact (generateSource_unmatched_close defaultDelims true
      "<p><%= name %></p>".toList).1 (by
        intro i hoff
        obtain ⟨l, hl, hopen, hclose⟩ := hoff
        match i, hl with
        | 0, hl => rw [show (scannedTokens defaultDelims "<p><%= name %></p>".toList)[0]? = some "<p>".toList by decide] at hl; cases hl; exact absurd hopen (by decide)
        | 1, hl => rw [show (scannedTokens defaultDelims "<p><%= name %></p>".toList)[1]? = some "<%=".toList by decide] at hl; cases hl; exact absurd hclose (by decide)
        | 2, hl => rw [show (scannedTokens defaultDelims "<p><%= name %></p>".toList)[2]? = some " name ".toList by decide] at hl; cases hl; exact absurd hopen (by decide)
        | 3, hl => rw [show (scannedTokens defaultDelims "<p><%= name %></p>".toList)[3]? = some "%>".toList by decide] at hl; cases hl; exact absurd hopen (by decide)
        | 4, hl => rw [show (scannedTokens defaultDelims "<p><%= name %></p>".toList)[4]? = some "</p>".toList by decide] at hl; cases hl; exact absurd hopen (by decide)
        | (n+5), hl =>
          rw [List.getElem?_eq_none (l := scannedTokens defaultDelims "<p><%= name %></p>".toList)
            (by rw [show (scannedTokens defaultDelims "<p><%= name %></p>".toList).length = 5 by decide]; omega)] at hl
          cases hl)

/- ### C3: tag-free templates render unchanged -/

/-- Per-character description of the composite of the four escapes of
`Template.#addOutput`. -/
def jsEscChar (c : Char) : List Char :=
  if c = '\\' then ['\\', '\\']
  else if c = '\n' then ['\\', 'n']
  else if c = '\r' then ['\\', 'r']
  else if c = qtChar then ['\\', qtChar]
  else [c]

theorem escLF_append (a b : List Char) : escLF (a ++ b) = escLF a ++ escLF b := by
  induction a with
  | nil => rfl
  | cons c r ih => by_cases hc : c = '\n' <;> simp [escLF, hc, ih]

theorem escCR_append (a b : List Char) : escCR (a ++ b) = escCR a ++ escCR b := by
  induction a with
  | nil => rfl
  | cons c r ih => by_cases hc : c = '\r' <;> simp [escCR, hc, ih]

theorem escQuote_append (a b : List Char) :
    escQuote (a ++ b) = escQuote a ++ escQuote b := by
  induction a with
  | nil => rfl
  | cons c r ih => by_cases hc : c = qtChar <;> simp [escQuote, hc, ih]

theorem jsEscapeString_cons (c : Char) (l : List Char) :
    jsEscapeString (c :: l) = jsEscChar c ++ jsEscapeString l := by
  by_cases h1 : c = '\\'
  · subst h1
    simp [jsEscapeString, escBackslash, escLF_append, escCR_append, escQuote_append,
      escLF, escCR, escQuote, jsEscChar, qtChar]
  · by_cases h2 : c = '\n'
    · subst h2
      simp [jsEscapeString, escBackslash, escLF_append, escCR_append, escQuote_append,
        escLF, escCR, escQuote, jsEscChar, qtChar]
    · by_cases h3 : c = '\r'
      · subst h3
        simp [jsEscapeString, escBackslash, escLF_append, escCR_append, escQuote_append,
          escLF, escCR, escQuote, jsEscChar, qtChar]
      · by_cases h4 : c = qtChar
        · subst h4
          simp [jsEscapeString, escBackslash, escLF_append, escCR_append,
            escQuote_append, escLF, escCR, escQuote, jsEscChar, qtChar]
        · simp [jsEscapeString, escBackslash, escLF_append, escCR_append,
            escQuote_append, escLF, escCR, escQuote, jsEscChar, h1, h2, h3, h4]

theorem jsUnquote_jsEscChar (c : Char) (l : List Char) :
    jsUnquote (jsEscChar c ++ l) = c :: jsUnquote l := by
  by_cases h1 : c = '\\'
  · subst h1; simp [jsEscChar, jsUnquote, qtChar]
  · by_cases h2 : c = '\n'
    · subst h2; simp [jsEscChar, jsUnquote, qtChar]
    · by_cases h3 : c = '\r'
      · subst h3; simp [jsEscChar, jsUnquote, qtChar]
      · by_cases h4 : c = qtChar
        · subst h4; simp [jsEscChar, jsUnquote, qtChar]
        · simp [jsEscChar, jsUnquote, h1, h2, h3, h4]

/-- The string-literal escaping of `Template.#addOutput` is inverted by
string-literal decoding: the literal content survives the round trip. -/
theorem jsUnquote_jsEscapeString (l : List Char) :
    jsUnquote (jsEscapeString l) = l := by
  induction l with
  | nil => rfl
  | cons c r ih => rw [jsEscapeString_cons, jsUnquote_jsEscChar, ih]

theorem findMatch_none_no_marker {ms : List (List Char)} {l : List Char}
    (h : findMatch ms l = none) :
    ∀ m ∈ ms, ∀ i, listStartsWith m (l.drop i) = false := by
  induction l with
  | nil =>
    intro m hm i
    simp only [findMatch] at h
    cases hfa : findMarkerAt ms [] with
    | some m2 => rw [hfa] at h; exact absurd h (by simp)
    | none =>
      have := List.find?_eq_none.mp hfa m hm
      simpa using this
  | cons c cs ih =>
    intro m hm i
    simp only [findMatch] at h
    cases hfa : findMarkerAt ms (c :: cs) with
    | some m2 => rw [hfa] at h; exact absurd h (by simp)
    | none =>
      rw [hfa] at h
      have hrec : findMatch ms cs = none := by
        cases hr : findMatch ms cs with
        | none => rfl
        | some p => rw [hr] at h; exact absurd h (by simp)
      cases i with
      | zero =>
        have := List.find?_eq_none.mp hfa m hm
        simpa using this
      | succ i' =>
        have := ih hrec m hm i'
        simpa using this

/-- A template with no pattern match is equal to no marker string. -/
theorem ne_of_no_marker {ms : List (List Char)} {text : List Char}
    (h : findMatch ms text = none) {m : List Char} (hm : m ∈ ms) : text ≠ m := by
  intro he
  have := findMatch_none_no_marker h m hm 0
  rw [List.drop_zero, he] at this
  rw [listStartsWith_self] at this
  cases this

theorem slurpOpenGo_id (fuel : Nat) (l : List Char)
    (h : ∀ i, listStartsWith odUnd (l.drop i) = false) :
    slurpOpenGo fuel l = l := by
  induction fuel generalizing l with
  | zero => rfl
  | succ n ih =>
    cases l with
    | nil => rfl
    | cons c rest =>
      have hafter : listStartsWith odUnd ((c :: rest).dropWhile isSpaceTab) = false := by
        obtain ⟨t, ht⟩ := List.dropWhile_suffix (l := c :: rest) (p := isSpaceTab)
        have e : (t ++ (c :: rest).dropWhile isSpaceTab).drop t.length
            = (c :: rest).dropWhile isSpaceTab := List.drop_left _ _
        rw [ht] at e
        rw [← e]
        exact h t.length
      have hrest : ∀ i, listStartsWith odUnd (rest.drop i) = false := by
        intro i
        have := h (i + 1)
        simpa using this
      simp only [slurpOpenGo, hafter, Bool.false_eq_true, if_false]
      rw [ih rest hrest]

theorem slurpOpen_id (l : List Char)
    (h : ∀ i, listStartsWith odUnd (l.drop i) = false) : slurpOpen l = l :=
  slurpOpenGo_id _ l h

theorem slurpCloseGo_id (fuel : Nat) (l : List Char)
    (h : ∀ i, listStartsWith undDC (l.drop i) = false) :
    slurpCloseGo fuel l = l := by
  induction fuel generalizing l with
  | zero => rfl
  | succ n ih =>
    cases l with
    | nil => rfl
    | cons c rest =>
      have h0 : listStartsWith undDC (c :: rest) = false := by
        have := h 0
        simpa using this
      have hrest : ∀ i, listStartsWith undDC (rest.drop i) = false := by
        intro i
        have := h (i + 1)
        simpa using this
      simp only [slurpCloseGo, h0, Bool.false_eq_true, if_false]
      rw [ih rest hrest]

theorem slurpClose_id (l : List Char)
    (h : ∀ i, listStartsWith undDC (l.drop i) = false) : slurpClose l = l :=
  slurpCloseGo_id _ l h

/-- With no pattern match in the template, the scan yields the whole
template as a single literal token (or nothing for the empty template). -/
theorem parseTemplateText_no_match {ms : List (List Char)} {l : List Char}
    (h : findMatch ms l = none) :
    parseTemplateText ms l = if l = [] then [] else [l] := by
  cases l with
  | nil => simp [parseTemplateText, parseGo, h]
  | cons c cs => simp [parseTemplateText, parseGo, h]

/-- For a token equal to none of the ten marker strings, `Template.scanLine`
takes the default branch of its switch. -/
theorem scanLine_not_marker (cfg : DelimSet) (dbg : Bool) (st : ScanState)
    (line : List Char) (h : ∀ m ∈ markers cfg, line ≠ m) :
    scanLine cfg dbg st line =
      (if dbg && countNl line != 0 then
        { scanDefault st line with
            currentLine := (scanDefault st line).currentLine + countNl line,
            source := (scanDefault st line).source
              ++ [.lineUpdate ((scanDefault st line).currentLine + countNl line)] }
      else scanDefault st line) := by
  have h1 : ¬(line = cfg.openDelimiter ++ cfg.delimiter
      ∨ line = cfg.openDelimiter ++ cfg.delimiter ++ ['_']) := by
    rintro (he | he) <;>
      [exact (h _ (by simp [markers])) he; exact (h _ (by simp [markers])) he]
  have h2 : ¬(line = cfg.openDelimiter ++ cfg.delimiter ++ ['=']) :=
    h _ (by simp [markers])
  have h3 : ¬(line = cfg.openDelimiter ++ cfg.delimiter ++ ['-']) :=
    h _ (by simp [markers])
  have h4 : ¬(line = cfg.openDelimiter ++ cfg.delimiter ++ ['#']) :=
    h _ (by simp [markers])
  have h5 : ¬(line = cfg.openDelimiter ++ cfg.delimiter ++ cfg.delimiter) :=
    h _ (by simp [markers])
  have h6 : ¬(line = cfg.delimiter ++ cfg.delimiter ++ cfg.closeDelimiter) :=
    h _ (by simp [markers])
  have h7 : ¬(line = cfg.delimiter ++ cfg.closeDelimiter
      ∨ line = '-' :: (cfg.delimiter ++ cfg.closeDelimiter)
      ∨ line = '_' :: (cfg.delimiter ++ cfg.closeDelimiter)) := by
    rintro (he | he | he)
    · exact (h _ (by simp [markers])) he
    · exact (h _ (by simp [markers])) he
    · exact (h _ (by simp [markers])) he
  unfold scanLine
  simp only [if_neg h1, if_neg h2, if_neg h3, if_neg h4, if_neg h5, if_neg h6, if_neg h7]

/-- C3: for every template in which the scanning pattern finds no match
(no tag markers, default delimiters) and every data context, rendering
returns the template text unchanged — the generated program is a single
literal append whose executed output is exactly the template text
(independent of any data, since no code statement is synthesized); and the
empty template yields an empty token sequence, an empty statement list and
empty output. -/
theorem render_literal_roundtrip (dbg : Bool) (text : List Char)
    (h : findMatch (markers defaultDelims) text = none) :
    (∃ stmts, generateSourceStmts defaultDelims dbg text = .ok stmts ∧
       execOutput stmts = some text)
    ∧ parseTemplateText (markers defaultDelims) ([] : List Char) = []
    ∧ generateSourceStmts defaultDelims dbg ([] : List Char) = .ok []
    ∧ execOutput [] = some [] := by
  refine ⟨?_, by decide, rfl, rfl⟩
  by_cases hne : text = []
  · subst hne
    exact ⟨[], rfl, rfl⟩
  · have hslO : slurpOpen text = text :=
      slurpOpen_id text (fun i => findMatch_none_no_marker h odUnd (by decide) i)
    have hslC : slurpClose text = text :=
      slurpClose_id text (fun i => findMatch_none_no_marker h undDC (by decide) i)
    have htoks : scannedTokens defaultDelims text = [text] := by
      unfold scannedTokens
      rw [hslO, hslC, parseTemplateText_no_match h, if_neg hne]
    have hopen : isOpenTag defaultDelims text = false := by
      unfold isOpenTag
      have hx := findMatch_none_no_marker h
        (defaultDelims.openDelimiter ++ defaultDelims.delimiter) (by decide) 0
      rw [List.drop_zero] at hx
      simp [hx]
    have hcheck : closeTagCheck defaultDelims [text] = .ok () := by
      simp [closeTagCheck, hopen]
    have hnm : ∀ m ∈ markers defaultDelims, text ≠ m := fun m hm =>
      ne_of_no_marker h hm
    have hscan := scanLine_not_marker defaultDelims dbg initState text hnm
    have haddout : scanDefault initState text
        = { initState with source := [Stmt.appendStr (jsEscapeString text)] } := by
      simp [scanDefault, initState, addOutput, hne]
    refine ⟨(if dbg && countNl text != 0 then
        [Stmt.appendStr (jsEscapeString text), Stmt.lineUpdate (1 + countNl text)]
      else [Stmt.appendStr (jsEscapeString text)]), ?_, ?_⟩
    · unfold generateSourceStmts
      rw [htoks]
      simp only [hcheck]
      simp only [List.foldl_cons, List.foldl_nil]
      rw [hscan, haddout]
      by_cases hdbg : (dbg && countNl text != 0) = true <;>
        simp [hdbg, initState]
    · by_cases hdbg : (dbg && countNl text != 0) = true <;>
        simp [hdbg, execOutput, stmtOut, jsUnquote_jsEscapeString]

/-- Witness for C3 at a concrete tag-free template. -/
theorem render_literal_roundtrip_witness :
    findMatch (markers defaultDelims) "hello world".toList = none ∧
      ∃ stmts, generateSourceStmts defaultDelims true "hello world".toList = .ok stmts
        ∧ execOutput stmts = some "hello world".toList := by
  refine ⟨by decide, ?_⟩
  exact (render_literal_roundtrip true "hello world".toList (by decide)).1

/- ### C4: the default escape function of the primary engine -/

/-- JavaScript values relevant to the default escape function. -/
inductive JSValue where
  | undef
  | null
  | str (s : List Char)
  | num (n : Int)
deriving DecidableEq, Repr

/-- JavaScript `String(value)` on the embedded value domain. -/
def jsValueToString : JSValue → List Char
  | .undef => "undefined".toList
  | .null => "null".toList
  | .str s => s
  | .num n => (toString n).toList

/-- Modelled from the spec: the `xml-escape` npm dependency (not part of
this repository's sources) replaces each of `&`, `<`, `>`, `'`, `"` by its
corresponding XML entity and leaves every other character unchanged. -/
def xmlEscape : List Char → List Char
  | [] => []
  | c :: rest =>
    (if c = '&' then "&amp;".toList
     else if c = '<' then "&lt;".toList
     else if c = '>' then "&gt;".toList
     else if c = aposChar then "&apos;".toList
     else if c = qtChar then "&quot;".toList
     else [c]) ++ xmlEscape rest

/-- `customEscape` of the primary engine: empty string for `undefined` or
`null`, otherwise `xmlEscape(String(value))`. -/
def customEscape : JSValue → List Char
  | .undef => []
  | .null => []
  | v => xmlEscape (jsValueToString v)

/-- Entity substitution for a single character, as the specification
describes it (used to state the escaping property). -/
def xmlEntity (c : Char) : List Char :=
  if c = '&' then "&amp;".toList
  else if c = '<' then "&lt;".toList
  else if c = '>' then "&gt;".toList
  else if c = aposChar then "&apos;".toList
  else if c = qtChar then "&quot;".toList
  else [c]

/-- C4: the default escape function of the primary engine replaces every
occurrence of `&`, `<`, `>`, `'`, `"` in a string by its entity (and only
those), returns the empty string for `null` and `undefined`, and returns
`"0"` for the number `0`. -/
theorem customEscape_spec :
    (∀ s, customEscape (.str s) = s.flatMap xmlEntity)
    ∧ customEscape .null = []
    ∧ customEscape .undef = []
    ∧ customEscape (.num 0) = ['0']
    ∧ xmlEntity '&' = "&amp;".toList
    ∧ xmlEntity '<' = "&lt;".toList
    ∧ xmlEntity '>' = "&gt;".toList
    ∧ xmlEntity aposChar = "&apos;".toList
    ∧ xmlEntity qtChar = "&quot;".toList
    ∧ (∀ c, c ≠ '&' → c ≠ '<' → c ≠ '>' → c ≠ aposChar → c ≠ qtChar →
        xmlEntity c = [c]) := by
  refine ⟨?_, rfl, rfl, by decide, by decide, by decide, by decide, by decide,
    by decide, ?_⟩
  · intro s
    show xmlEscape s = s.flatMap xmlEntity
    induction s with
    | nil => rfl
    | cons c rest ih =>
      simp only [xmlEscape, xmlEntity, List.flatMap_cons, ih]
  · intro c h1 h2 h3 h4 h5
    simp [xmlEntity, h1, h2, h3, h4, h5]

/- ### C5: the pending-truncate flag -/

/-- C5: scanning a close marker that begins with `-` or `_` arms the
truncate flag and a plain close marker leaves it unarmed; with the flag
armed, the next literal output token has exactly one leading line-break
sequence (CRLF, lone CR or lone LF) removed before string-escaping and the
flag is cleared, and nothing is emitted when the content becomes empty;
with the flag unarmed nothing is stripped. -/
theorem truncate_flag_spec :
    (∀ (dbg : Bool) (st : ScanState),
      (scanLine defaultDelims dbg st "-%>".toList).truncate = true
      ∧ (scanLine defaultDelims dbg st "_%>".toList).truncate = true
      ∧ (scanLine defaultDelims dbg st "%>".toList).truncate = false)
    ∧ (∀ (st : ScanState) (line : List Char), st.truncate = true →
        addOutput st line =
          (if stripOneLeadingNewline line = [] then { st with truncate := false }
           else { st with
                    truncate := false,
                    source := (st.source ++
                      [Stmt.appendStr (jsEscapeString (stripOneLeadingNewline line))]) }))
    ∧ (∀ (st : ScanState) (line : List Char), st.truncate = false →
        addOutput st line =
          (if line = [] then st
           else { st with
                    source := (st.source ++ [Stmt.appendStr (jsEscapeString line)]) }))
    ∧ stripOneLeadingNewline ('\r' :: '\n' :: 'x' :: '\n' :: [])
        = ('x' :: '\n' :: [])
    ∧ stripOneLeadingNewline ('\n' :: '\n' :: 'x' :: []) = ('\n' :: 'x' :: [])
    ∧ stripOneLeadingNewline ('\r' :: 'x' :: []) = ('x' :: []) := by
  refine ⟨?_, ?_, ?_, rfl, rfl, rfl⟩
  · intro dbg st
    refine ⟨?_, ?_, ?_⟩ <;>
      simp [scanLine, defaultDelims, countNl, listStartsWith]
  · rintro ⟨m, tr, cl, src⟩ line h
    obtain rfl : tr = true := h
    by_cases hs : stripOneLeadingNewline line = [] <;> simp [addOutput, hs]
  · rintro ⟨m, tr, cl, src⟩ line h
    obtain rfl : tr = false := h
    by_cases hs : line = [] <;> simp [addOutput, hs]

/-- Witness for C5: a concrete armed state strips the single leading
newline, clears the flag, and appends the escaped remainder. -/
theorem truncate_flag_spec_witness :
    addOutput ⟨none, true, 1, []⟩ ('\n' :: 'a' :: 'b' :: [])
      = ⟨none, false, 1, [Stmt.appendStr ('a' :: 'b' :: [])]⟩
    ∧ (scanLine defaultDelims true ⟨none, false, 1, []⟩ "-%>".toList).truncate
        = true := by
  constructor
  · have h := truncate_flag_spec.2.1 ⟨none, true, 1, []⟩ ('\n' :: 'a' :: 'b' :: []) rfl
    rw [h]
    decide
  · exact ((truncate_flag_spec.1 true ⟨none, false, 1, []⟩).1)

/- ### C6: the error contextualizer `rethrow` -/

/-- `source.split('\n')` with JavaScript semantics (splitting the empty
string yields one empty line). -/
def splitNl : List Char → List (List Char)
  | [] => [[]]
  | c :: rest =>
    if c = '\n' then [] :: splitNl rest
    else
      match splitNl rest with
      | [] => [[c]]
      | l :: ls => (c :: l) :: ls

/-- One excerpt row: the marker (` >> ` on the failing line, four spaces
elsewhere), the 1-based line number, `| `, and the line text. -/
def contextLine (lineno curr : Nat) (line : List Char) : List Char :=
  (if curr = lineno then " >> ".toList else "    ".toList)
    ++ Nat.toDigits 10 curr ++ "| ".toList ++ line

/-- The `.map((line, i) => ...)` of `rethrow`, with the running index made
explicit: row `i` of the window is numbered `i + start + 1`. -/
def contextRows (lineno : Nat) : Nat → List (List Char) → List (List Char)
  | _, [] => []
  | i, line :: rest => contextLine lineno (i + 1) line :: contextRows lineno (i + 1) rest

/-- `Array.prototype.join('\n')`. -/
def joinNl (ls : List (List Char)) : List Char := (ls.intersperse ['\n']).flatten

/-- The excerpt (`context`) built by `rethrow`: lines
`slice(max(lineno-3,0), min(lines.length, lineno+3))`, each prefixed with
its 1-based number and marker. -/
def rethrowContext (source : List Char) (lineno : Nat) : List Char :=
  let lines := splitNl source
  let start := lineno - 3
  let stop := min lines.length (lineno + 3)
  joinNl (contextRows lineno start ((lines.drop start).take (stop - start)))

/-- The fields of the decorated error `rethrow` throws (`rethrow` never
returns normally — its return type is `never` — so the thrown error's
`path` and rewritten `message` are the observable result). -/
structure RethrowResult where
  path : Option (List Char)
  message : List Char
deriving DecidableEq, Repr

/-- `rethrow({error, source, filename, lineno, escape})`: escape the
filename, store it as the error's `path`, and rewrite the message to
`<filename ?? 'ets'>:<lineno>\n<context>\n\n<original message>`. -/
def rethrow (errorMsg source : List Char) (filename : Option (List Char))
    (lineno : Nat) (escape : Option (List Char) → Option (List Char)) :
    RethrowResult :=
  let fname := escape filename
  let context := rethrowContext source lineno
  ⟨fname,
    (fname.getD "ets".toList) ++ ':' :: Nat.toDigits 10 lineno
      ++ '\n' :: context ++ '\n' :: '\n' :: errorMsg⟩

/-- Modelled from the spec: an excerpt "spanning from three lines before to
three lines after the failing line (clamped to document bounds)", same row
format as the implementation.  The first row is line `lineno - 3`
(0-based start index `lineno - 4`), the last is line `lineno + 3`. -/
def specRethrowContext (source : List Char) (lineno : Nat) : List Char :=
  let lines := splitNl source
  let start := lineno - 4
  let stop := min lines.length (lineno + 3)
  joinNl (contextRows lineno start ((lines.drop start).take (stop - start)))

/-- A ten-line document used to compare the implementation's excerpt window
with the window the specification describes. -/
def cexSource : List Char :=
  ('l' :: '1' :: '\n' :: 'l' :: '2' :: '\n' :: 'l' :: '3' :: '\n' :: 'l' :: '4'
    :: '\n' :: 'l' :: '5' :: '\n' :: 'l' :: '6' :: '\n' :: 'l' :: '7' :: '\n'
    :: 'l' :: '8' :: '\n' :: 'l' :: '9' :: '\n' :: 'l' :: '1' :: '0' :: [])

/-- Counterexample for C6: on a ten-line document with failing line 5 the
excerpt `rethrow` builds starts at line 3 (two lines before the failing
line), not at line 2 as the claimed three-lines-before window would; the
rewritten message therefore also differs from the message the claim
describes. -/
theorem rethrow_window_cex :
    rethrowContext cexSource 5 ≠ specRethrowContext cexSource 5
    ∧ rethrow ('b' :: 'o' :: 'o' :: 'm' :: []) cexSource
        (some ('f' :: [])) 5 (fun x => x)
      ≠ ⟨some ('f' :: []),
          ('f' :: []) ++ ':' :: Nat.toDigits 10 5
            ++ '\n' :: specRethrowContext cexSource 5
            ++ '\n' :: '\n' :: ('b' :: 'o' :: 'o' :: 'm' :: [])⟩ := by
  constructor
  · decide
  · decide

theorem listStartsWith_append (p t : List Char) :
    listStartsWith p (p ++ t) = true := by
  induction p with
  | nil => rfl
  | cons c cs ih => simp [listStartsWith, ih]

theorem contextRows_eq_range (lineno : Nat) (lines : List (List Char)) :
    ∀ (len s : Nat), s + len ≤ lines.length →
      contextRows lineno s ((lines.drop s).take len)
        = (List.range' (s + 1) len).map
            (fun curr => contextLine lineno curr (lines.getD (curr - 1) [])) := by
  intro len
  induction len with
  | zero => intro s h; simp [contextRows]
  | succ n ih =>
    intro s h
    have hs : s < lines.length := by omega
    rw [List.drop_eq_getElem_cons hs]
    simp only [List.take_succ_cons, contextRows]
    rw [ih (s + 1) (by omega), List.range'_succ (s + 1) n 1]
    simp only [List.map_cons]
    congr 2
    rw [Nat.add_sub_cancel, List.getD_eq_getElem lines [] hs]

/-- C6 (amended): `rethrow` sets the error's `path` to the escaped filename
and rewrites the message to `<filename>:<lineno>\n<excerpt>\n\n<original>`,
falling back to the placeholder name `ets` when the escaped filename is
absent; the excerpt spans from two lines before to three lines after the
failing line, clamped to document bounds — its rows are exactly the lines
numbered `lineno - 2` through `min(#lines, lineno + 3)` — each row carries
its 1-based line number, prefixed `" >> "` on the failing line and four
spaces elsewhere. -/
theorem rethrow_spec (errorMsg source : List Char) (filename : Option (List Char))
    (lineno : Nat) (escape : Option (List Char) → Option (List Char)) :
    (rethrow errorMsg source filename lineno escape).path = escape filename
    ∧ (rethrow errorMsg source filename lineno escape).message
        = ((escape filename).getD "ets".toList) ++ ':' :: Nat.toDigits 10 lineno
          ++ '\n' :: rethrowContext source lineno ++ '\n' :: '\n' :: errorMsg
    ∧ rethrowContext source lineno
        = joinNl ((List.range' (lineno - 3 + 1)
            (min (splitNl source).length (lineno + 3) - (lineno - 3))).map
            (fun curr => contextLine lineno curr ((splitNl source).getD (curr - 1) [])))
    ∧ (∀ line, listStartsWith " >> ".toList (contextLine lineno lineno line) = true)
    ∧ (∀ curr line, curr ≠ lineno →
        listStartsWith "    ".toList (contextLine lineno curr line) = true) := by
  refine ⟨rfl, rfl, ?_, ?_, ?_⟩
  · simp only [rethrowContext]
    by_cases hss : min (splitNl source).length (lineno + 3) ≤ lineno - 3
    · have h0 : min (splitNl source).length (lineno + 3) - (lineno - 3) = 0 := by omega
      rw [h0]
      simp [contextRows]
    · exact congrArg joinNl (contextRows_eq_range lineno (splitNl source) _ _ (by omega))
  · intro line
    simp only [contextLine, if_pos rfl]
    exact listStartsWith_append _ _
  · intro curr line h
    simp only [contextLine, if_neg h]
    exact listStartsWith_append _ _

/- ### C7, C8: option resolution and identifier validation (primary engine) -/

/-- The option fields (of `Partial<ETSOptions>`) the validated compile path
depends on; `none` is an unset option. -/
structure PartialOpts where
  compileDebug : Option Bool
  delimiter : Option (List Char)
  openDelimiter : Option (List Char)
  closeDelimiter : Option (List Char)
  outputFunctionName : Option (List Char)
  localsName : Option (List Char)
deriving DecidableEq, Repr

/-- The resolved options record the primary engine's `Template` constructor
builds. -/
structure ResolvedOpts where
  compileDebug : Bool
  delimiter : List Char
  openDelimiter : List Char
  closeDelimiter : List Char
  outputFunctionName : Option (List Char)
  localsName : List Char
deriving DecidableEq, Repr

/-- Option defaulting of the primary engine's `Template` constructor:
`compileDebug` defaults to `true`, delimiters to `%`, `<`, `>`,
`localsName` to `locals`; `outputFunctionName` stays optional. -/
def resolveOptions (opts : PartialOpts) : ResolvedOpts :=
  { compileDebug := opts.compileDebug.getD true
  , delimiter := opts.delimiter.getD "%".toList
  , openDelimiter := opts.openDelimiter.getD "<".toList
  , closeDelimiter := opts.closeDelimiter.getD ">".toList
  , outputFunctionName := opts.outputFunctionName
  , localsName := opts.localsName.getD "locals".toList }

/-- First character class of `JS_IDENTIFIER_REGEX = /^[a-zA-Z_$][\w$]*$/`. -/
def jsIdentStart (c : Char) : Bool := c.isAlpha || c = '_' || c = '$'

/-- Continuation character class (`[\w$]`). -/
def jsIdentChar (c : Char) : Bool := c.isAlphanum || c = '_' || c = '$'

/-- `JS_IDENTIFIER_REGEX.test(s)`. -/
def jsIdentifierTest : List Char → Bool
  | [] => false
  | c :: rest => jsIdentStart c && rest.all jsIdentChar

/-- Message thrown for an invalid `outputFunctionName`. -/
def ofnErrorMsg : List Char :=
  "outputFunctionName is not a valid JS identifier.".toList

/-- Message thrown for an invalid `localsName`. -/
def localsErrorMsg : List Char :=
  "localsName is not a valid JS identifier.".toList

/-- Identifier validation in the primary engine's `Template` constructor:
a set `outputFunctionName` must pass the identifier regex (checked first),
then `localsName` must pass it. -/
def constructorChecks (r : ResolvedOpts) : Except (List Char) Unit :=
  if r.outputFunctionName.any (fun s => ! jsIdentifierTest s) then
    .error ofnErrorMsg
  else if ! jsIdentifierTest r.localsName then .error localsErrorMsg
  else .ok ()

/-- `new Template(text, opts)` of the primary engine, up to its options
state: resolve the options, then validate the identifiers. -/
def mkTemplate (opts : PartialOpts) : Except (List Char) ResolvedOpts :=
  match constructorChecks (resolveOptions opts) with
  | .error e => .error e
  | .ok _ => .ok (resolveOptions opts)

/-- The primary engine's `compile(template, options)` up to source
generation: construct the `Template` (which validates the identifiers),
then generate the body statements.  The invocable function is built only
afterwards, from the generated source, so a validation error precedes any
function construction and any execution of synthesized code. -/
def compilePrimary (opts : PartialOpts) (text : List Char) :
    Except (List Char) (List Stmt) :=
  match mkTemplate opts with
  | .error e => .error e
  | .ok r =>
    generateSourceStmts ⟨r.openDelimiter, r.closeDelimiter, r.delimiter⟩
      r.compileDebug text

theorem closeTagCheck_error_shape {cfg : DelimSet} {toks : List (List Char)}
    {e : List Char} (h : closeTagCheck cfg toks = .error e) :
    ∃ line, e = unmatchedError line := by
  induction toks with
  | nil => exact absurd h (by simp [closeTagCheck])
  | cons line rest ih =>
    by_cases hc : (isOpenTag cfg line && !isValidClose cfg rest[1]?) = true
    · rw [closeTagCheck, if_pos hc] at h
      exact ⟨line, by cases h; rfl⟩
    · rw [closeTagCheck, if_neg hc] at h
      exact ih h

theorem generateSourceStmts_error_shape {cfg : DelimSet} {dbg : Bool}
    {text e : List Char} (h : generateSourceStmts cfg dbg text = .error e) :
    ∃ line, e = unmatchedError line := by
  unfold generateSourceStmts at h
  cases hc : closeTagCheck cfg (scannedTokens cfg text) with
  | error e2 =>
    simp only [hc] at h
    cases h
    exact closeTagCheck_error_shape hc
  | ok u => simp [hc] at h

/-- C7: in the primary engine, a set `outputFunctionName` that is not a
syntactically valid JS identifier, or an invalid `localsName`, makes the
compile pipeline fail with a validation error naming the invalid option —
for every template text, i.e. during compilation before the function is
constructed or any synthesized code exists; with valid identifiers the
constructor succeeds and no identifier-validation error can arise later in
source generation. -/
theorem identifier_validation_spec (opts : PartialOpts) (text : List Char) :
    (∀ s, opts.outputFunctionName = some s → jsIdentifierTest s = false →
      compilePrimary opts text = .error ofnErrorMsg)
    ∧ ((∀ s, opts.outputFunctionName = some s → jsIdentifierTest s = true) →
        jsIdentifierTest (resolveOptions opts).localsName = false →
        compilePrimary opts text = .error localsErrorMsg)
    ∧ ((∀ s, opts.outputFunctionName = some s → jsIdentifierTest s = true) →
        jsIdentifierTest (resolveOptions opts).localsName = true →
        mkTemplate opts = .ok (resolveOptions opts)
        ∧ (∀ e, compilePrimary opts text = .error e →
            e ≠ ofnErrorMsg ∧ e ≠ localsErrorMsg)) := by
  refine ⟨?_, ?_, ?_⟩
  · intro s hs hbad
    have hofn : (resolveOptions opts).outputFunctionName = some s := by
      simp [resolveOptions, hs]
    have : constructorChecks (resolveOptions opts) = .error ofnErrorMsg := by
      unfold constructorChecks
      rw [if_pos]
      rw [hofn]
      simp [hbad]
    simp [compilePrimary, mkTemplate, this]
  · intro hofnok hbad
    have hnofail : (resolveOptions opts).outputFunctionName.any
        (fun s => ! jsIdentifierTest s) = false := by
      cases hx : opts.outputFunctionName with
      | none => simp [resolveOptions, hx]
      | some s => simp [resolveOptions, hx, hofnok s hx]
    have : constructorChecks (resolveOptions opts) = .error localsErrorMsg := by
      unfold constructorChecks
      rw [if_neg (by rw [hnofail]; simp), if_pos (by rw [hbad]; simp)]
    simp [compilePrimary, mkTemplate, this]
  · intro hofnok hlocals
    have hnofail : (resolveOptions opts).outputFunctionName.any
        (fun s => ! jsIdentifierTest s) = false := by
      cases hx : opts.outputFunctionName with
      | none => simp [resolveOptions, hx]
      | some s => simp [resolveOptions, hx, hofnok s hx]
    have hch : constructorChecks (resolveOptions opts) = .ok () := by
      unfold constructorChecks
      rw [if_neg (by rw [hnofail]; simp), if_neg (by rw [hlocals]; simp)]
    have hmk : mkTemplate opts = .ok (resolveOptions opts) := by
      simp [mkTemplate, hch]
    refine ⟨hmk, ?_⟩
    intro e he
    rw [compilePrimary, hmk] at he
    obtain ⟨line, rfl⟩ := generateSourceStmts_error_shape he
    constructor
    · intro hx
      have h1 : (unmatchedError line).head? = some 'C' := rfl
      rw [hx] at h1
      exact absurd h1 (by decide)
    · intro hx
      have h1 : (unmatchedError line).head? = some 'C' := rfl
      rw [hx] at h1
      exact absurd h1 (by decide)

/-- Witness for C7: an invalid `outputFunctionName` and an invalid
`localsName` each fail with the error naming that option, while valid
identifiers construct successfully. -/
theorem identifier_validation_spec_witness :
    compilePrimary ⟨none, none, none, none, some ('1' :: 'b' :: []), none⟩
        ('x' :: []) = .error ofnErrorMsg
    ∧ compilePrimary ⟨none, none, none, none, none, some ('b' :: ' ' :: [])⟩
        ('x' :: []) = .error localsErrorMsg
    ∧ mkTemplate ⟨none, none, none, none, some ('o' :: 'k' :: []), none⟩
        = .ok (resolveOptions ⟨none, none, none, none, some ('o' :: 'k' :: []), none⟩) := by
  refine ⟨?_, ?_, ?_⟩
  · exact (identifier_validation_spec _ _).1 ('1' :: 'b' :: []) rfl (by decide)
  · exact (identifier_validation_spec _ _).2.1
      (by intro s hs; exact absurd hs (by simp)) (by decide)
  · exact ((identifier_validation_spec
      ⟨none, none, none, none, some ('o' :: 'k' :: []), none⟩ ('x' :: [])).2.2
      (by intro s hs; cases hs; decide) (by decide)).1

/-- C8: when `opts.compileDebug` is unset, the primary engine's constructor
resolves `compileDebug` to `true`. -/
theorem compileDebug_default (opts : PartialOpts) (h : opts.compileDebug = none) :
    (resolveOptions opts).compileDebug = true := by
  simp [resolveOptions, h]

/-- Witness for C8 at the all-defaults options record. -/
theorem compileDebug_default_witness :
    (resolveOptions ⟨none, none, none, none, none, none⟩).compileDebug = true :=
  compileDebug_default ⟨none, none, none, none, none, none⟩ rfl

/- ### C9: trailing-semicolon stripping in ESCAPED and RAW modes -/

/-- C9: for a non-marker content token, ESCAPED mode emits
`__append(escapeFn(<content>))` and RAW mode emits `__append(<content>)`
with the content's trailing semicolon (a `;` followed only by whitespace up
to the end) stripped, while EVAL mode inlines the content (after the
`//`-comment newline guard) without stripping; consequently `<%= x; %>`
compiles to the same statements as `<%= x %>`.  `stripSemi` removes
exactly the semicolon whose tail is all whitespace and nothing else. -/
theorem stripSemi_modes_spec :
    (∀ (dbg : Bool) (st : ScanState) (line : List Char),
      st.mode = some .escaped → (∀ m ∈ markers defaultDelims, line ≠ m) →
      (scanLine defaultDelims dbg st line).source
        = st.source ++ [.appendEscape (stripSemi (commentFix line))]
          ++ (if dbg && countNl line != 0
              then [.lineUpdate (st.currentLine + countNl line)] else []))
    ∧ (∀ (dbg : Bool) (st : ScanState) (line : List Char),
      st.mode = some .raw → (∀ m ∈ markers defaultDelims, line ≠ m) →
      (scanLine defaultDelims dbg st line).source
        = st.source ++ [.appendRaw (stripSemi (commentFix line))]
          ++ (if dbg && countNl line != 0
              then [.lineUpdate (st.currentLine + countNl line)] else []))
    ∧ (∀ (dbg : Bool) (st : ScanState) (line : List Char),
      st.mode = some .eval → (∀ m ∈ markers defaultDelims, line ≠ m) →
      (scanLine defaultDelims dbg st line).source
        = st.source ++ [.code (commentFix line)]
          ++ (if dbg && countNl line != 0
              then [.lineUpdate (st.currentLine + countNl line)] else []))
    ∧ generateSourceStmts defaultDelims true "<%= x; %>".toList
        = generateSourceStmts defaultDelims true "<%= x %>".toList
    ∧ (∀ (l ws : List Char), ws.all isJsWhitespace = true →
        stripSemi (l ++ ';' :: ws) = l ++ ws)
    ∧ (∀ l : List Char, ';' ∉ l → stripSemi l = l) := by
  have hsemi : ∀ (l ws : List Char), ws.all isJsWhitespace = true →
      stripSemi (l ++ ';' :: ws) = l ++ ws := by
    intro l ws hws
    induction l with
    | nil => simp [stripSemi, hws]
    | cons c rest ih =>
      have hall : ((rest ++ ';' :: ws).all isJsWhitespace) = false := by
        refine List.all_eq_false.mpr ⟨';', by simp, by decide⟩
      simp only [List.cons_append, stripSemi, List.append_eq, hall, Bool.and_false,
        Bool.false_eq_true, if_false]
      rw [ih]
  have hmode : ∀ (dbg : Bool) (st : ScanState) (line : List Char),
      (∀ m ∈ markers defaultDelims, line ≠ m) →
      (scanLine defaultDelims dbg st line).source
        = (scanDefault st line).source
          ++ (if dbg && countNl line != 0
              then [.lineUpdate ((scanDefault st line).currentLine + countNl line)]
              else []) := by
    intro dbg st line hnm
    rw [scanLine_not_marker defaultDelims dbg st line hnm]
    by_cases hdbg : (dbg && countNl line != 0) = true <;> simp [hdbg]
  have hca : ∀ (st : ScanState) (line : List Char),
      (addOutput st line).currentLine = st.currentLine := by
    intro st line
    simp only [addOutput]
    split <;> first | rfl | (split <;> rfl)
  have hcl : ∀ (st : ScanState) (line : List Char),
      (scanDefault st line).currentLine = st.currentLine := by
    intro st line
    cases hm2 : st.mode with
    | none => simp only [scanDefault, hm2]; exact hca st line
    | some md =>
      cases md <;> simp only [scanDefault, hm2] <;>
        first | rfl | exact hca st line
  refine ⟨?_, ?_, ?_, by rfl, hsemi, ?_⟩
  · intro dbg st line hm hnm
    rw [hmode dbg st line hnm, hcl]
    simp [scanDefault, hm]
  · intro dbg st line hm hnm
    rw [hmode dbg st line hnm, hcl]
    simp [scanDefault, hm]
  · intro dbg st line hm hnm
    rw [hmode dbg st line hnm, hcl]
    simp [scanDefault, hm]
  · intro l hl
    induction l with
    | nil => rfl
    | cons c rest ih =>
      have hc : ¬(c = ';') := fun he => hl (by rw [he]; exact List.mem_cons_self _ _)
      have hmem : ';' ∉ rest := fun hm2 => hl (List.mem_cons_of_mem c hm2)
      simp [stripSemi, hc, ih hmem]

/-- Witness for C9: concrete escaped-mode scan strips the semicolon, and the
two example templates compile to the same appended statement. -/
theorem stripSemi_modes_spec_witness :
    (scanLine defaultDelims false ⟨some .escaped, false, 1, []⟩
        (' ' :: 'x' :: ';' :: ' ' :: [])).source
      = [Stmt.appendEscape (' ' :: 'x' :: ' ' :: [])]
    ∧ stripSemi (' ' :: 'x' :: ';' :: ' ' :: []) = (' ' :: 'x' :: ' ' :: []) := by
  constructor
  · have h := stripSemi_modes_spec.1 false ⟨some .escaped, false, 1, []⟩
      (' ' :: 'x' :: ';' :: ' ' :: []) rfl (by decide)
    rw [h]
    decide
  · exact stripSemi_modes_spec.2.2.2.2.1 (' ' :: 'x' :: []) (' ' :: []) (by decide)

/- ### C10: the empty outputFunctionName -/

/-- The `outputFunctionName` handling in the first (non-primary) variant's
`Template.compile`: `if (options.outputFunctionName)` is a JavaScript
truthiness test, so an unset name and the empty string are both skipped
(no validation, no binding); a truthy name is validated against the
identifier regex and, when valid, bound as a convenience alias of
`__append` in the prologue.  The result is the emitted binding name. -/
def v1OutputFnBinding (outputFunctionName : Option (List Char)) :
    Except (List Char) (Option (List Char)) :=
  match outputFunctionName with
  | none => .ok none
  | some s =>
    if s = [] then .ok none
    else if ! jsIdentifierTest s then .error ofnErrorMsg
    else .ok (some s)

/-- The identifier checks of the first variant's `Template.compile`:
the `outputFunctionName` truthiness gate, then the `localsName` check. -/
def v1CompileChecks (outputFunctionName : Option (List Char))
    (localsName : List Char) : Except (List Char) (Option (List Char)) :=
  match v1OutputFnBinding outputFunctionName with
  | .error e => .error e
  | .ok binding =>
    if ! jsIdentifierTest localsName then .error localsErrorMsg
    else .ok binding

/-- Counterexample for C10: in the primary engine the empty string is a
set, non-identifier `outputFunctionName`, so the `Template` constructor —
and hence `compile` — rejects it with the identifier-validation error
rather than treating it as unset. -/
theorem emptyOutputFunctionName_rejected_primary :
    compilePrimary ⟨none, none, none, none, some [], none⟩ ('x' :: [])
        = .error ofnErrorMsg
    ∧ mkTemplate ⟨none, none, none, none, some [], none⟩ = .error ofnErrorMsg := by
  constructor
  · rfl
  · rfl

/-- C10 (amended): it is the first (non-primary) variant's
`Template.compile` in which the empty-string `outputFunctionName` — being
falsy — raises no identifier-validation error and emits no convenience
append binding, exactly like an unset name; the primary engine's
constructor instead rejects it. -/
theorem emptyOutputFunctionName_v1 (localsName : List Char)
    (h : jsIdentifierTest localsName = true) :
    v1CompileChecks (some []) localsName = .ok none
    ∧ v1CompileChecks none localsName = .ok none := by
  constructor
  · simp [v1CompileChecks, v1OutputFnBinding, h]
  · simp [v1CompileChecks, v1OutputFnBinding, h]

/-- Witness for C10's amended claim at the default `locals` name. -/
theorem emptyOutputFunctionName_v1_witness :
    v1CompileChecks (some []) ('l' :: 'o' :: 'c' :: 'a' :: 'l' :: 's' :: [])
      = .ok none :=
  (emptyOutputFunctionName_v1 ('l' :: 'o' :: 'c' :: 'a' :: 'l' :: 's' :: [])
    (by decide)).1

/-- Witness for C4: a concrete ampersand is replaced by its entity and an
ordinary character passes through. -/
theorem customEscape_spec_witness :
    customEscape (.str ('a' :: '&' :: 'b' :: []))
      = ('a' :: '&' :: 'a' :: 'm' :: 'p' :: ';' :: 'b' :: [])
    ∧ xmlEntity 'z' = ['z'] := by
  constructor
  · have h := customEscape_spec.1 ('a' :: '&' :: 'b' :: [])
    rw [h]
    decide
  · exact customEscape_spec.2.2.2.2.2.2.2.2.2 'z' (by decide) (by decide)
      (by decide) (by decide) (by decide)

/-- Witness for C6's amended theorem: fallback name and a non-failing row's
indentation at concrete inputs. -/
theorem rethrow_spec_witness :
    (rethrow ('b' :: []) ('a' :: '\n' :: 'b' :: []) none 1 (fun _ => none)).message
      = "ets".toList ++ ':' :: Nat.toDigits 10 1
        ++ '\n' :: rethrowContext ('a' :: '\n' :: 'b' :: []) 1
        ++ '\n' :: '\n' :: ('b' :: [])
    ∧ listStartsWith "    ".toList (contextLine 1 2 ('b' :: [])) = true := by
  constructor
  · exact (rethrow_spec ('b' :: []) ('a' :: '\n' :: 'b' :: []) none 1
      (fun _ => none)).2.1
  · exact (rethrow_spec ('b' :: []) ('a' :: '\n' :: 'b' :: []) none 1
      (fun _ => none)).2.2.2.2 2 ('b' :: []) (by decide)

end Ets
